import Mathlib

/-!
# QuCumber tutorial training-loop contract: a shallow embedding

The repository ships tutorial notebooks (two variants of
`tutorial_qubits.ipynb`) together with documentation scaffolding; the
library routines the notebooks invoke (`QuantumReconstruction.fit`,
`MetricEvaluator`, `ComplexWavefunction.save` / `.sample`) live in an
external library that is referenced but not shown.  Following the
specification, the training-and-evaluation loop the notebooks drive is
modelled here: hyperparameter validation, batch partitioning, the
persistent negative-phase chain, the metric cadence, checkpoint
serialization, and the report lines recorded in the notebooks' stored
outputs.
-/

/-- Modelled from the spec: a Metric Record, "a mapping from metric name to
scalar value, tagged with the epoch at which it was computed" (the
`MetricEvaluator` output; the evaluator itself is not under `src/`).
A `none` value marks a metric whose function failed, recorded as errored
rather than silently dropped. -/
structure MetricRecord (V : Type) where
  epoch : Nat
  values : List (String × Option V)
  deriving DecidableEq

/-- Modelled from the spec: the configuration surface consumed by `fit`
(`epochs`, `batch_size`, `num_chains`, `CD` sampling steps, learning rate
`lr`, metric cadence `log_every`), as set up in cell 4 of the tutorials.
The learning rate is carried as a rational to keep the model exact. -/
structure RunConfig where
  epochs : Nat
  batch_size : Nat
  num_chains : Nat
  cd : Nat
  lr : ℚ
  log_every : Nat
  deriving DecidableEq

/-- Modelled from the spec: the opaque Model capability interface
(`ComplexWavefunction`, not under `src/`): parameter (re)initialization
from a seed, and the gradient/update step taking a positive-phase batch,
the current negative-phase chain state, the number of contrastive
divergence steps and the learning rate, returning the mutated parameters
and the evolved chain state.  `P` is the parameter state, `C` the
negative-phase chain state, `S` a dataset sample. -/
structure Model (P C S : Type) where
  initialize_parameters : Nat → P
  update : P → List S → C → Nat → ℚ → P × C

/-- Modelled from the spec: the error taxonomy entry for out-of-range
hyperparameters, surfaced before any parameter mutation occurs. -/
inductive TrainError where
  | invalidConfiguration
  deriving DecidableEq

/-- Modelled from the spec: `fit` "validates that `epoch_count > 0`,
`batch_size > 0`, `0 < negative_phase_sample_count`, `sampling_steps > 0`,
`learning_rate > 0`". -/
def validConfig (cfg : RunConfig) : Bool :=
  decide (0 < cfg.epochs) && decide (0 < cfg.batch_size) &&
    decide (0 < cfg.num_chains) && decide (0 < cfg.cd) && decide (0 < cfg.lr)

/-- Fuel-driven batch partitioning (the fuel makes the recursion
structural; `batches` supplies `xs.length` as fuel). -/
def batchesAux : Nat → Nat → List α → List (List α)
  | 0, _, _ => []
  | _ + 1, _, [] => []
  | fuel + 1, bs, x :: xs =>
    (x :: xs.take (bs - 1)) :: batchesAux fuel bs (xs.drop (bs - 1))

/-- Modelled from the spec: "the positive-phase dataset is partitioned
into batches of `batch_size` (last batch may be shorter)", in the fixed
dataset order. -/
def batches (bs : Nat) (xs : List α) : List (List α) :=
  batchesAux xs.length bs xs

/-- Modelled from the spec: the 1-based epochs `1..n` at which the Metric
Evaluator fires, namely "every epoch where `epoch mod cadence == 0`". -/
def metricEpochs (c : Nat) : Nat → List Nat
  | 0 => []
  | n + 1 => metricEpochs c n ++ (if (n + 1) % c == 0 then [n + 1] else [])

/-- The state threaded through the modelled training loop: the Model
parameters, the persistent negative-phase chain, and the accumulated
Metric Records. -/
structure TrainState (P C V : Type) where
  params : P
  chain : C
  records : List (MetricRecord V)

variable {P C S V : Type} {α : Type}

/-- Modelled from the spec: one evaluation of every configured metric
(name / function pairs) on the current parameter state; a failing metric
yields `none` for its name (isolate-and-continue policy). -/
def evalMetrics (ms : List (String × (P → Option V))) (p : P) :
    List (String × Option V) :=
  ms.map fun m => (m.1, m.2 p)

/-- Modelled from the spec: one epoch's batch loop — for every batch in
the fixed order, the Model's update step is invoked with the batch, the
current chain state, `sampling_steps` and the learning rate; parameters
and the chain are threaded through sequentially. -/
def epochStep (model : Model P C S) (cfg : RunConfig) (data : List S)
    (p : P) (c : C) : P × C :=
  (batches cfg.batch_size data).foldl
    (fun pc b => model.update pc.1 b pc.2 cfg.cd cfg.lr) (p, c)

/-- Modelled from the spec: epoch `i` — all batches applied, then the
Metric Evaluator observes the post-epoch parameters and appends a record
when the cadence matches `i`. -/
def runEpoch (model : Model P C S) (cfg : RunConfig) (data : List S)
    (ms : List (String × (P → Option V))) (i : Nat)
    (st : TrainState P C V) : TrainState P C V :=
  let pc := epochStep model cfg data st.params st.chain
  { params := pc.1
    chain := pc.2
    records :=
      if i % cfg.log_every == 0 then
        st.records ++ [⟨i, evalMetrics ms pc.1⟩]
      else st.records }

/-- The epochs `1..n` run in order (1-based, contiguous). -/
def runEpochs (model : Model P C S) (cfg : RunConfig) (data : List S)
    (ms : List (String × (P → Option V))) : Nat → TrainState P C V →
    TrainState P C V
  | 0, st => st
  | n + 1, st => runEpoch model cfg data ms (n + 1) (runEpochs model cfg data ms n st)

/-- Modelled from the spec: `QuantumReconstruction.fit` (not under
`src/`).  Hyperparameters are validated eagerly; an invalid configuration
fails with `invalidConfiguration` before any parameter mutation, otherwise
the epochs run and the Metric Records, final parameters and final chain
state are returned. -/
def fit (model : Model P C S) (cfg : RunConfig) (data : List S)
    (ms : List (String × (P → Option V))) (p : P) (c : C) :
    Except TrainError (List (MetricRecord V)) × P × C :=
  if validConfig cfg then
    let st := runEpochs model cfg data ms cfg.epochs ⟨p, c, []⟩
    (Except.ok st.records, st.params, st.chain)
  else
    (Except.error TrainError.invalidConfiguration, p, c)

/-! ## Batch partitioning facts -/

lemma batchesAux_flatten (bs : Nat) :
    ∀ (fuel : Nat) (xs : List α), xs.length ≤ fuel →
      (batchesAux fuel bs xs).flatten = xs := by
  intro fuel
  induction fuel with
  | zero =>
    intro xs h
    have hx : xs = [] := List.eq_nil_of_length_eq_zero (Nat.le_zero.mp h)
    subst hx
    rfl
  | succ n ih =>
    intro xs h
    cases xs with
    | nil => rfl
    | cons x l =>
      have hlen : (l.drop (bs - 1)).length ≤ n := by
        have := List.length_drop (bs - 1) l
        simp only [List.length_cons] at h
        omega
      simp only [batchesAux, List.flatten_cons, ih _ hlen, List.cons_append,
        List.take_append_drop]

lemma batches_flatten (bs : Nat) (xs : List α) :
    (batches bs xs).flatten = xs :=
  batchesAux_flatten bs xs.length xs le_rfl

lemma batchesAux_sizes (bs : Nat) (hbs : 0 < bs) :
    ∀ (fuel : Nat) (xs : List α), ∀ b ∈ batchesAux fuel bs xs,
      b ≠ [] ∧ b.length ≤ bs := by
  intro fuel
  induction fuel with
  | zero => intro xs b hb; simp [batchesAux] at hb
  | succ n ih =>
    intro xs b hb
    cases xs with
    | nil => simp [batchesAux] at hb
    | cons x l =>
      simp only [batchesAux, List.mem_cons] at hb
      rcases hb with rfl | hb
      · refine ⟨by simp, ?_⟩
        have := List.length_take (bs - 1) l
        simp only [List.length_cons, this]
        omega
      · exact ih _ b hb

lemma batches_sizes (bs : Nat) (hbs : 0 < bs) (xs : List α) :
    ∀ b ∈ batches bs xs, b ≠ [] ∧ b.length ≤ bs :=
  batchesAux_sizes bs hbs xs.length xs

/-! ## Metric cadence facts -/

lemma metricEpochs_eq_map (c : Nat) :
    ∀ n, metricEpochs c n = (List.range (n / c)).map (fun k => (k + 1) * c) := by
  intro n
  induction n with
  | zero => simp [metricEpochs]
  | succ n ih =>
    rw [metricEpochs, ih]
    by_cases h : c ∣ (n + 1)
    · have hmod : (n + 1) % c = 0 := Nat.mod_eq_zero_of_dvd h
      have hdiv : (n + 1) / c = n / c + 1 := by
        rw [Nat.succ_div, if_pos h]
      have hval : (n / c + 1) * c = n + 1 := by
        rw [← hdiv]
        exact Nat.div_mul_cancel h
      rw [hdiv, List.range_succ, List.map_append]
      simp [hmod, hval]
    · have hmod : (n + 1) % c ≠ 0 := fun hz => h (Nat.dvd_of_mod_eq_zero hz)
      have hdiv : (n + 1) / c = n / c := by
        rw [Nat.succ_div, if_neg h, Nat.add_zero]
      rw [hdiv]
      simp [hmod]

lemma metricEpochs_length (c : Nat) (n : Nat) :
    (metricEpochs c n).length = n / c := by
  rw [metricEpochs_eq_map c]
  simp

lemma metricEpochs_sorted (c : Nat) (hc : 0 < c) (n : Nat) :
    (metricEpochs c n).Pairwise (· < ·) := by
  rw [metricEpochs_eq_map c]
  refine List.Pairwise.map _ (fun a b hab => ?_) (List.pairwise_lt_range _)
  exact Nat.mul_lt_mul_of_lt_of_le (by omega) le_rfl hc

lemma metricEpochs_mem (c : Nat) (hc : 0 < c) (n e : Nat)
    (he : e ∈ metricEpochs c n) : 0 < e ∧ c ∣ e ∧ e ≤ n := by
  rw [metricEpochs_eq_map c] at he
  simp only [List.mem_map, List.mem_range] at he
  obtain ⟨k, hk, rfl⟩ := he
  refine ⟨Nat.mul_pos (Nat.succ_pos k) hc, dvd_mul_left c (k + 1), ?_⟩
  calc (k + 1) * c ≤ n / c * c := Nat.mul_le_mul_right c hk
    _ ≤ n := Nat.div_mul_le_self n c

lemma metricEpochs_nil_of_lt (c n : Nat) (h : n < c) : metricEpochs c n = [] := by
  induction n with
  | zero => rfl
  | succ n ih =>
    have h1 : (n + 1) % c = n + 1 := Nat.mod_eq_of_lt h
    rw [metricEpochs, ih (by omega)]
    simp [h1]

/-! ## Training-loop record structure -/

/-- The Metric Records a valid `fit` run accumulates. -/
def fitRecords (model : Model P C S) (cfg : RunConfig) (data : List S)
    (ms : List (String × (P → Option V))) (p : P) (c : C) :
    List (MetricRecord V) :=
  (runEpochs model cfg data ms cfg.epochs ⟨p, c, []⟩).records

lemma runEpochs_records_epochs (model : Model P C S) (cfg : RunConfig)
    (data : List S) (ms : List (String × (P → Option V))) :
    ∀ (n : Nat) (st : TrainState P C V),
      ((runEpochs model cfg data ms n st).records).map MetricRecord.epoch =
        st.records.map MetricRecord.epoch ++ metricEpochs cfg.log_every n := by
  intro n
  induction n with
  | zero => intro st; simp [runEpochs, metricEpochs]
  | succ n ih =>
    intro st
    simp only [runEpochs, runEpoch, metricEpochs]
    cases h : ((n + 1) % cfg.log_every == 0) <;> simp [h, ih st]

lemma runEpochs_records_values (model : Model P C S) (cfg : RunConfig)
    (data : List S) (ms : List (String × (P → Option V))) :
    ∀ (n : Nat) (st : TrainState P C V),
      ∀ r ∈ (runEpochs model cfg data ms n st).records,
        r ∈ st.records ∨ ∃ pr, r.values = evalMetrics ms pr := by
  intro n
  induction n with
  | zero => intro st r hr; exact Or.inl hr
  | succ n ih =>
    intro st r hr
    simp only [runEpochs, runEpoch] at hr
    cases h : ((n + 1) % cfg.log_every == 0) <;> simp [h] at hr
    · exact ih st r hr
    · rcases hr with hr | rfl
      · exact ih st r hr
      · exact Or.inr ⟨_, rfl⟩

lemma fit_of_valid (model : Model P C S) (cfg : RunConfig) (data : List S)
    (ms : List (String × (P → Option V))) (p : P) (c : C)
    (hv : validConfig cfg = true) :
    (fit model cfg data ms p c).1 = Except.ok (fitRecords model cfg data ms p c) := by
  simp [fit, hv, fitRecords]

lemma fitRecords_epochs (model : Model P C S) (cfg : RunConfig) (data : List S)
    (ms : List (String × (P → Option V))) (p : P) (c : C) :
    (fitRecords model cfg data ms p c).map MetricRecord.epoch =
      metricEpochs cfg.log_every cfg.epochs := by
  simpa [fitRecords] using
    runEpochs_records_epochs model cfg data ms cfg.epochs ⟨p, c, []⟩

/-! ## Concrete instantiations used by the witnesses -/

/-- A concrete opaque Model instance over natural numbers: the update
step bumps the parameter by the batch length and steps the chain. -/
def natModel : Model Nat Nat Nat where
  initialize_parameters := fun s => s
  update := fun p b c _ _ => (p + b.length, c + 1)

/-- The configuration of the earlier tutorial draft: `epochs = 50`,
`batch_size = 50`, `num_chains = 10`, `CD = 5`, positive learning rate,
`log_every = 10`. -/
def cfg50 : RunConfig :=
  { epochs := 50, batch_size := 50, num_chains := 10, cd := 5, lr := 1,
    log_every := 10 }

/-! ## C1: metric cadence over a full run -/

/-- **C1.** For every valid `fit` configuration, the reported Metric
Record epochs are strictly increasing and each is a positive multiple of
`log_every` not exceeding `epochs`; when moreover `log_every` divides
`epochs`, exactly `epochs / log_every` records are produced, at epochs
`log_every, 2*log_every, ..., epochs`. -/
theorem fit_metric_cadence (model : Model P C S) (cfg : RunConfig)
    (data : List S) (ms : List (String × (P → Option V))) (p : P) (c : C)
    (hv : validConfig cfg = true) (hc : 0 < cfg.log_every) :
    (fit model cfg data ms p c).1 = Except.ok (fitRecords model cfg data ms p c) ∧
    ((fitRecords model cfg data ms p c).map MetricRecord.epoch).Pairwise (· < ·) ∧
    (∀ e ∈ (fitRecords model cfg data ms p c).map MetricRecord.epoch,
        0 < e ∧ cfg.log_every ∣ e ∧ e ≤ cfg.epochs) ∧
    (cfg.log_every ∣ cfg.epochs →
      (fitRecords model cfg data ms p c).length = cfg.epochs / cfg.log_every ∧
      (fitRecords model cfg data ms p c).map MetricRecord.epoch =
        (List.range (cfg.epochs / cfg.log_every)).map
          (fun k => (k + 1) * cfg.log_every)) := by
  have hmap := fitRecords_epochs model cfg data ms p c
  refine ⟨fit_of_valid model cfg data ms p c hv, ?_, ?_, fun _ => ⟨?_, ?_⟩⟩
  · rw [hmap]
    exact metricEpochs_sorted _ hc _
  · intro e he
    rw [hmap] at he
    exact metricEpochs_mem _ hc _ _ he
  · have := congrArg List.length hmap
    simpa [metricEpochs_length] using this
  · rw [hmap, metricEpochs_eq_map]

/-- Witness for C1 at the earlier tutorial's configuration
(`epochs = 50`, `log_every = 10`): exactly 5 records, at epochs
10, 20, 30, 40, 50. -/
theorem fit_metric_cadence_witness :
    validConfig cfg50 = true ∧
    (fitRecords natModel cfg50 [0, 1] ([] : List (String × (Nat → Option Nat))) 0 0).map
        MetricRecord.epoch =
      (List.range (cfg50.epochs / cfg50.log_every)).map
        (fun k => (k + 1) * cfg50.log_every) :=
  ⟨by decide,
    ((fit_metric_cadence natModel cfg50 [0, 1] [] 0 0 (by decide)
        (by decide)).2.2.2 (by decide)).2⟩

lemma validConfig_eq_true_iff (cfg : RunConfig) :
    validConfig cfg = true ↔
      0 < cfg.epochs ∧ 0 < cfg.batch_size ∧ 0 < cfg.num_chains ∧
        0 < cfg.cd ∧ 0 < cfg.lr := by
  simp [validConfig, and_assoc]

/-! ## C8: cadence exceeding the epoch count -/

/-- The configuration probing the cadence edge case: `epochs = 5` with
`log_every = 10`, otherwise valid. -/
def cfg5 : RunConfig :=
  { epochs := 5, batch_size := 50, num_chains := 10, cd := 5, lr := 1,
    log_every := 10 }

/-- **C8.** When the cadence exceeds the total epoch count, the modelled
evaluator follows the spec's documented policy for the tutorials — zero
Metric Records — consistently on every valid run; in particular it fires
at most once and never during the run. -/
theorem fit_cadence_exceeds_epochs (model : Model P C S) (cfg : RunConfig)
    (data : List S) (ms : List (String × (P → Option V))) (p : P) (c : C)
    (hv : validConfig cfg = true) (h : cfg.epochs < cfg.log_every) :
    (fit model cfg data ms p c).1 = Except.ok [] ∧
    fitRecords model cfg data ms p c = [] := by
  have hnil : fitRecords model cfg data ms p c = [] := by
    have hmap := fitRecords_epochs model cfg data ms p c
    rw [metricEpochs_nil_of_lt _ _ h] at hmap
    exact List.map_eq_nil_iff.mp hmap
  exact ⟨by rw [fit_of_valid model cfg data ms p c hv, hnil], hnil⟩

/-- Witness for C8: `epochs = 5`, `log_every = 10` produces zero records. -/
theorem fit_cadence_exceeds_epochs_witness :
    validConfig cfg5 = true ∧
    ((fit natModel cfg5 [0, 1] ([] : List (String × (Nat → Option Nat))) 0 0).1 =
        Except.ok [] ∧
      fitRecords natModel cfg5 [0, 1]
        ([] : List (String × (Nat → Option Nat))) 0 0 = []) :=
  ⟨by decide, fit_cadence_exceeds_epochs natModel cfg5 [0, 1] [] 0 0
    (by decide) (by decide)⟩

/-! ## C4: invalid configurations fail before any mutation -/

/-- **C4.** A `fit` call whose hyperparameters violate
`epochs > 0`, `batch_size > 0`, `num_chains > 0`, `cd > 0` or `lr > 0`
fails with `invalidConfiguration`, and the returned parameter state and
chain state are exactly the pre-call ones — no Model mutation occurs. -/
theorem fit_invalid_config (model : Model P C S) (cfg : RunConfig)
    (data : List S) (ms : List (String × (P → Option V))) (p : P) (c : C)
    (h : cfg.epochs = 0 ∨ cfg.batch_size = 0 ∨ cfg.num_chains = 0 ∨
      cfg.cd = 0 ∨ cfg.lr ≤ 0) :
    fit model cfg data ms p c =
      (Except.error TrainError.invalidConfiguration, p, c) := by
  have hv : validConfig cfg = false := by
    unfold validConfig
    rcases h with h | h | h | h | h
    · simp [h]
    · simp [h]
    · simp [h]
    · simp [h]
    · simp [decide_eq_false (not_lt.mpr h)]
  simp [fit, hv]

/-- Witness for C4: `batch_size = 0` (the tutorial's other hyperparameters)
fails with `invalidConfiguration` and leaves the parameters `7` and the
chain `3` untouched. -/
theorem fit_invalid_config_witness :
    ({ cfg50 with batch_size := 0 } : RunConfig).batch_size = 0 ∧
    fit natModel { cfg50 with batch_size := 0 } [0, 1]
        ([] : List (String × (Nat → Option Nat))) 7 3 =
      (Except.error TrainError.invalidConfiguration, 7, 3) :=
  ⟨rfl, fit_invalid_config natModel { cfg50 with batch_size := 0 } [0, 1] [] 7 3
    (Or.inr (Or.inl rfl))⟩

/-! ## C5: batch partitioning covers every sample exactly once -/

/-- **C5.** For every valid configuration, partitioning the positive-phase
dataset into batches concatenates back to exactly the dataset (every
sample exactly once, no duplication, in order), whether or not
`batch_size` divides its size; every batch is nonempty and no longer than
`batch_size` (the last may be shorter). -/
theorem batches_cover (cfg : RunConfig) (data : List α)
    (hv : validConfig cfg = true) :
    (batches cfg.batch_size data).flatten = data ∧
    ∀ b ∈ batches cfg.batch_size data, b ≠ [] ∧ b.length ≤ cfg.batch_size :=
  ⟨batches_flatten cfg.batch_size data,
    batches_sizes cfg.batch_size ((validConfig_eq_true_iff cfg).mp hv).2.1 data⟩

/-- The configuration exercising a batch size that does not divide the
dataset size. -/
def cfgB : RunConfig :=
  { epochs := 3, batch_size := 2, num_chains := 1, cd := 1, lr := 1,
    log_every := 1 }

/-- Witness for C5: `batch_size = 2` over a 5-sample dataset — the three
batches concatenate back to the dataset and the last batch is shorter. -/
theorem batches_cover_witness :
    validConfig cfgB = true ∧
    ((batches cfgB.batch_size [0, 1, 2, 3, 4]).flatten = [0, 1, 2, 3, 4] ∧
      ∀ b ∈ batches cfgB.batch_size [0, 1, 2, 3, 4],
        b ≠ [] ∧ b.length ≤ cfgB.batch_size) :=
  ⟨by decide, batches_cover cfgB [0, 1, 2, 3, 4] (by decide)⟩

/-! ## C3: checkpoint serialization (save / load round trip) -/

/-- Modelled from the spec: one token of the checkpoint's single binary
blob.  `ComplexWavefunction.save` is not under `src/`; the tutorials
pickle the mapping, and a pickle stream is an opcode/token stream, so the
blob is modelled as a token list. -/
inductive PickleTok where
  | pnat : Nat → PickleTok
  | pint : Int → PickleTok
  | pstr : String → PickleTok
  deriving DecidableEq

/-- A named mapping of exact (bit-for-bit) flattened tensor contents,
standing for the amplitude/phase weights and biases, or for user
metadata. -/
abbrev NamedInts := List (String × List Int)

/-- The key under which the parameter mapping is stored in the blob. -/
def parametersKey : String := "parameters"

/-- The key under which the user-supplied metadata is stored. -/
def metadataKey : String := "metadata"

def encInts (l : List Int) : List PickleTok :=
  PickleTok.pnat l.length :: l.map PickleTok.pint

def encEntry (e : String × List Int) : List PickleTok :=
  PickleTok.pstr e.1 :: encInts e.2

def encDict (d : NamedInts) : List PickleTok :=
  PickleTok.pnat d.length :: (d.map encEntry).flatten

/-- Modelled from the spec: `save` writes a single blob holding the
mapping with the "parameters" entries followed by the user-supplied
"metadata" entries. -/
def save (params metadata : NamedInts) : List PickleTok :=
  (PickleTok.pstr parametersKey :: encDict params) ++
    (PickleTok.pstr metadataKey :: encDict metadata)

def decInts : Nat → List PickleTok → Option (List Int × List PickleTok)
  | 0, ts => some ([], ts)
  | n + 1, PickleTok.pint i :: ts =>
    match decInts n ts with
    | some (l, r) => some (i :: l, r)
    | none => none
  | _ + 1, _ => none

def decEntries : Nat → List PickleTok → Option (NamedInts × List PickleTok)
  | 0, ts => some ([], ts)
  | n + 1, PickleTok.pstr s :: PickleTok.pnat m :: ts =>
    match decInts m ts with
    | some (l, r) =>
      match decEntries n r with
      | some (d, r2) => some ((s, l) :: d, r2)
      | none => none
    | none => none
  | _ + 1, _ => none

def decDict : List PickleTok → Option (NamedInts × List PickleTok)
  | PickleTok.pnat n :: ts => decEntries n ts
  | _ => none

/-- Modelled from the spec: `load` reads a checkpoint blob back into the
parameter mapping and the metadata mapping, requiring the two keys and
rejecting trailing garbage. -/
def load (blob : List PickleTok) : Option (NamedInts × NamedInts) :=
  match blob with
  | PickleTok.pstr k :: ts =>
    if k = parametersKey then
      match decDict ts with
      | some (params, PickleTok.pstr k2 :: ts2) =>
        if k2 = metadataKey then
          match decDict ts2 with
          | some (md, []) => some (params, md)
          | _ => none
        else none
      | _ => none
    else none
  | _ => none

lemma decInts_enc : ∀ (l : List Int) (ts : List PickleTok),
    decInts l.length (l.map PickleTok.pint ++ ts) = some (l, ts) := by
  intro l
  induction l with
  | nil => intro ts; rfl
  | cons i l ih => intro ts; simp [decInts, ih ts]

lemma decEntries_enc : ∀ (d : NamedInts) (ts : List PickleTok),
    decEntries d.length ((d.map encEntry).flatten ++ ts) = some (d, ts) := by
  intro d
  induction d with
  | nil => intro ts; rfl
  | cons e d ih =>
    intro ts
    simp [decEntries, encEntry, encInts, decInts_enc, ih]

/-- **C3.** For every parameter state and every user-supplied metadata
mapping, the checkpoint artifact is a single blob carrying the
parameters/metadata mapping, and loading what `save` wrote recovers the
parameters (and metadata) exactly — bit-exact round trip. -/
theorem save_load_round_trip (params metadata : NamedInts) :
    load (save params metadata) = some (params, metadata) := by
  have h2 := decEntries_enc metadata []
  rw [List.append_nil] at h2
  simp [save, load, encDict, decDict, decEntries_enc, h2]

/-! ## C6: the negative-phase chain across epochs -/

/-- A concrete Model whose sampling kernel fixes the chain state (a
legitimate instantiation of the opaque Model: a Markov kernel may return
the state it was given). -/
def fixedChainModel : Model Nat Nat Nat where
  initialize_parameters := fun s => s
  update := fun p b c _ _ => (p + b.length, c)

/-- **C6 counterexample.** Under a sampler whose Markov kernel fixes the
chain, a valid run with `sampling_steps = 1` has *equal* negative-phase
chain states after epoch 1 and after epoch 2, refuting "the chain state
after epoch `i+1` differs from its state after epoch `i`". -/
theorem chain_state_can_repeat :
    validConfig cfgB = true ∧ 1 ≤ cfgB.cd ∧ 2 ≤ cfgB.epochs ∧
    (runEpochs fixedChainModel cfgB [0, 1]
        ([] : List (String × (Nat → Option Nat))) 2 ⟨0, 0, []⟩).chain =
      (runEpochs fixedChainModel cfgB [0, 1]
        ([] : List (String × (Nat → Option Nat))) 1 ⟨0, 0, []⟩).chain :=
  ⟨by decide, by decide, by decide, rfl⟩

/-- **C6 (amended).** In every training run the negative-phase chain
state persists across epochs: the state after epoch `i+1` (parameters and
chain alike) is obtained by evolving the state after epoch `i` through
epoch `i+1`'s batch updates — the chain is never redrawn or reset between
epochs, though the sampler's kernel may happen to leave it unchanged. -/
theorem chain_state_persists (model : Model P C S) (cfg : RunConfig)
    (data : List S) (ms : List (String × (P → Option V))) (n : Nat)
    (st : TrainState P C V) :
    (runEpochs model cfg data ms (n + 1) st).chain =
      (epochStep model cfg data (runEpochs model cfg data ms n st).params
        (runEpochs model cfg data ms n st).chain).2 ∧
    (runEpochs model cfg data ms (n + 1) st).params =
      (epochStep model cfg data (runEpochs model cfg data ms n st).params
        (runEpochs model cfg data ms n st).chain).1 :=
  ⟨rfl, rfl⟩

/-! ## C7: a failing metric is isolated and training continues -/

/-- **C7.** If one metric function always fails, a valid run still
completes with the full cadence of Metric Records; in every record the
faulting metric's name is present, marked errored (`none`), not silently
dropped, and every other configured metric still has its entry. -/
theorem failing_metric_isolated (model : Model P C S) (cfg : RunConfig)
    (data : List S) (ms : List (String × (P → Option V))) (p : P) (c : C)
    (f : String × (P → Option V)) (hv : validConfig cfg = true)
    (hf : f ∈ ms) (hfail : ∀ q, f.2 q = none) :
    (fit model cfg data ms p c).1 = Except.ok (fitRecords model cfg data ms p c) ∧
    (fitRecords model cfg data ms p c).map MetricRecord.epoch =
      metricEpochs cfg.log_every cfg.epochs ∧
    ∀ r ∈ fitRecords model cfg data ms p c,
      r.values.map Prod.fst = ms.map Prod.fst ∧ (f.1, none) ∈ r.values := by
  refine ⟨fit_of_valid model cfg data ms p c hv,
    fitRecords_epochs model cfg data ms p c, ?_⟩
  intro r hr
  have h := runEpochs_records_values model cfg data ms cfg.epochs ⟨p, c, []⟩ r hr
  rcases h with h | ⟨pr, hval⟩
  · exact absurd h (List.not_mem_nil r)
  · refine ⟨?_, ?_⟩
    · rw [hval]
      simp [evalMetrics, List.map_map, Function.comp]
    · rw [hval]
      have hm : (f.1, f.2 pr) ∈ evalMetrics ms pr :=
        List.mem_map_of_mem _ hf
      rwa [hfail pr] at hm

/-- A metric that always fails, named after the tutorial's KL metric. -/
def klFail : String × (Nat → Option Nat) := ("KL", fun _ => none)

/-- The tutorial's metric mapping with its KL entry failing. -/
def msW : List (String × (Nat → Option Nat)) :=
  [("Fidelity", fun q => some q), klFail]

/-- Witness for C7: with the failing KL metric installed, every record of
a concrete valid run still lists both metric names, KL marked errored. -/
theorem failing_metric_isolated_witness :
    validConfig cfgB = true ∧
    ((fit natModel cfgB [0, 1] msW 0 0).1 =
        Except.ok (fitRecords natModel cfgB [0, 1] msW 0 0) ∧
      (fitRecords natModel cfgB [0, 1] msW 0 0).map MetricRecord.epoch =
        metricEpochs cfgB.log_every cfgB.epochs ∧
      ∀ r ∈ fitRecords natModel cfgB [0, 1] msW 0 0,
        r.values.map Prod.fst = msW.map Prod.fst ∧ (klFail.1, none) ∈ r.values) :=
  ⟨by decide, failing_metric_isolated natModel cfgB [0, 1] msW 0 0 klFail
    (by decide) (List.mem_cons_of_mem _ (List.mem_cons_self _ _)) (fun _ => rfl)⟩

/-! ## C9: fit never (re)initializes the parameters itself -/

lemma runEpochs_update_congr (m₁ m₂ : Model P C S)
    (h : m₁.update = m₂.update) (cfg : RunConfig) (data : List S)
    (ms : List (String × (P → Option V))) :
    ∀ (n : Nat) (st : TrainState P C V),
      runEpochs m₁ cfg data ms n st = runEpochs m₂ cfg data ms n st := by
  intro n
  induction n with
  | zero => intro st; rfl
  | succ n ih =>
    intro st
    simp only [runEpochs, runEpoch, epochStep, h, ih st]

/-- **C9.** `fit` never consults the Model's parameter initializer:
replacing `initialize_parameters` by any other function leaves the whole
result of `fit` unchanged (randomization happens only through a separate,
caller-side `initialize_parameters` call).  Moreover `fit` continues from
the caller's current parameters: under an update step that preserves the
parameter state, the final parameters are exactly the pre-call ones, not
a fresh initialization. -/
theorem fit_no_self_initialization (model : Model P C S) (g : Nat → P)
    (cfg : RunConfig) (data : List S) (ms : List (String × (P → Option V)))
    (p : P) (c : C) :
    fit { model with initialize_parameters := g } cfg data ms p c =
      fit model cfg data ms p c ∧
    ((∀ (q : P) (b : List S) (ch : C) (s : Nat) (l : ℚ),
        model.update q b ch s l = (q, ch)) →
      (fit model cfg data ms p c).2.1 = p) := by
  constructor
  · have h := runEpochs_update_congr { model with initialize_parameters := g }
      model rfl cfg data ms cfg.epochs ⟨p, c, []⟩
    simp only [fit, h]
  · intro hupd
    have hstep : ∀ (q : P) (ch : C), epochStep model cfg data q ch = (q, ch) := by
      intro q ch
      unfold epochStep
      suffices h : ∀ (l : List (List S)) (pc : P × C),
          l.foldl (fun pc b => model.update pc.1 b pc.2 cfg.cd cfg.lr) pc = pc by
        exact h _ (q, ch)
      intro l
      induction l with
      | nil => intro pc; rfl
      | cons b l ih => intro pc; simp [List.foldl_cons, hupd pc.1 b pc.2, ih]
    have hrun : ∀ (n : Nat) (st : TrainState P C V),
        (runEpochs model cfg data ms n st).params = st.params ∧
        (runEpochs model cfg data ms n st).chain = st.chain := by
      intro n
      induction n with
      | zero => intro st; exact ⟨rfl, rfl⟩
      | succ n ih =>
        intro st
        simp [runEpochs, runEpoch, (ih st).1, (ih st).2, hstep]
    by_cases hv : validConfig cfg = true
    · simp only [fit, hv, if_true]
      exact (hrun cfg.epochs ⟨p, c, []⟩).1
    · simp [fit, hv]

/-- A concrete Model whose update step preserves parameters and chain. -/
def idNatModel : Model Nat Nat Nat where
  initialize_parameters := fun s => s
  update := fun q _ ch _ _ => (q, ch)

/-- Witness for C9: swapping in an arbitrary initializer changes nothing,
and a run from parameters `7` ends at parameters `7` when the update step
is the identity — `fit` did not restart from fresh parameters. -/
theorem fit_no_self_initialization_witness :
    fit { idNatModel with initialize_parameters := fun _ => 99 } cfgB [0, 1]
        ([] : List (String × (Nat → Option Nat))) 7 3 =
      fit idNatModel cfgB [0, 1] [] 7 3 ∧
    (fit idNatModel cfgB [0, 1]
        ([] : List (String × (Nat → Option Nat))) 7 3).2.1 = 7 :=
  ⟨(fit_no_self_initialization idNatModel (fun _ => 99) cfgB [0, 1] [] 7 3).1,
    (fit_no_self_initialization idNatModel (fun _ => 99) cfgB [0, 1] [] 7 3).2
      (fun _ _ _ _ _ => rfl)⟩

/-! ## C2: report-sink line format

The two notebooks carry their recorded stdout; those lines are in the
repository and are embedded verbatim here.  The earlier draft prints
`Epoch = <i>` with a trailing tab; the final tutorial prints
`Epoch: <i>` with none. -/

/-- The evaluation lines recorded in the earlier tutorial draft's stored
output (epochs 50, cadence 10). -/
def part000ReportLines : List String :=
  [ "Epoch = 10\tFidelity = 0.938047\tKL = 0.033838\t",
    "Epoch = 20\tFidelity = 0.968853\tKL = 0.020733\t",
    "Epoch = 30\tFidelity = 0.978688\tKL = 0.017808\t",
    "Epoch = 40\tFidelity = 0.982974\tKL = 0.014539\t",
    "Epoch = 50\tFidelity = 0.981129\tKL = 0.015424\t" ]

/-- The evaluation lines recorded in `tutorial_qubits.ipynb`'s stored
output (epochs 700, cadence 50). -/
def tutorialReportLines : List String :=
  [ "Epoch: 50\tFidelity = 0.229389\tKL = 0.403479",
    "Epoch: 100\tFidelity = 0.456109\tKL = 0.288991",
    "Epoch: 150\tFidelity = 0.601977\tKL = 0.228510",
    "Epoch: 200\tFidelity = 0.816169\tKL = 0.092969",
    "Epoch: 250\tFidelity = 0.915173\tKL = 0.039915",
    "Epoch: 300\tFidelity = 0.952796\tKL = 0.023840",
    "Epoch: 350\tFidelity = 0.970297\tKL = 0.016395",
    "Epoch: 400\tFidelity = 0.979845\tKL = 0.012210",
    "Epoch: 450\tFidelity = 0.985860\tKL = 0.009295",
    "Epoch: 500\tFidelity = 0.989414\tKL = 0.007888",
    "Epoch: 550\tFidelity = 0.990719\tKL = 0.006733",
    "Epoch: 600\tFidelity = 0.991867\tKL = 0.006036",
    "Epoch: 650\tFidelity = 0.992520\tKL = 0.005615",
    "Epoch: 700\tFidelity = 0.993223\tKL = 0.005216" ]

/-- Tab-splitting over raw characters (mirrors splitting the line on
`\t`; written over `List Char` so that concrete runs reduce). -/
def splitTabs : List Char → List (List Char)
  | [] => [[]]
  | c :: rest =>
    if c = '\t' then [] :: splitTabs rest
    else
      match splitTabs rest with
      | f :: fs => (c :: f) :: fs
      | [] => [[c]]

/-- Parse a nonempty all-digit character run as a number. -/
def digitsToNat : List Char → Option Nat
  | [] => none
  | cs =>
    cs.foldl
      (fun acc c =>
        match acc with
        | none => none
        | some n => if c.isDigit then some (n * 10 + (c.toNat - 48)) else none)
      (some 0)

/-- The number of non-overlapping ` = ` separators in a field. -/
def countSep : List Char → Nat
  | ' ' :: '=' :: ' ' :: rest => 1 + countSep rest
  | _ :: rest => countSep rest
  | [] => 0

/-- The claim's exact line format: tab-separated fields, the first being
`Epoch: <i>`, the rest each `Name = value`, at least one metric field and
no trailing tab. -/
def isClaimReportLine (s : String) : Bool :=
  match splitTabs s.data with
  | f0 :: rest =>
    "Epoch: ".data.isPrefixOf f0 && (digitsToNat (f0.drop 7)).isSome &&
      !rest.isEmpty && rest.all fun f => countSep f == 1 && f ≠ []
  | [] => false

/-- The epoch number announced by a report line's first field, accepting
the two spellings the notebooks record (`Epoch: <i>` and `Epoch = <i>`). -/
def epochField (f : List Char) : Option Nat :=
  if "Epoch: ".data.isPrefixOf f then digitsToNat (f.drop 7)
  else if "Epoch = ".data.isPrefixOf f then digitsToNat (f.drop 8)
  else none

/-- The amended line format: an epoch field in either spelling, then at
least one tab-separated `Name = value` field, an optional trailing tab. -/
def isReportLine (s : String) : Bool :=
  match splitTabs s.data with
  | f0 :: rest =>
    (epochField f0).isSome &&
      (let fields := if rest.getLast? = some [] then rest.dropLast else rest
       !fields.isEmpty && fields.all fun f => countSep f == 1 && f ≠ [])
  | [] => false

/-- The epoch a recorded line reports (0 if the line is malformed). -/
def lineEpoch (s : String) : Nat :=
  match splitTabs s.data with
  | f0 :: _ => (epochField f0).getD 0
  | [] => 0

/-- One recorded run checks out against the amended format: every line
well-formed, and the announced epochs are exactly the cadence epochs of
the run — hence one line per trigger, strictly increasing, no
duplicates. -/
def checkRun (lines : List String) (epochs cadence : Nat) : Bool :=
  lines.all isReportLine && (lines.map lineEpoch == metricEpochs cadence epochs)

set_option maxRecDepth 4000 in
/-- **C2 counterexample.** The earlier draft's recorded run emits
`Epoch = 10<tab>...<tab>` — not the claimed exact `Epoch: <i>` format —
so the exact format does not hold of every training run. -/
theorem report_format_refuted :
    isClaimReportLine "Epoch = 10\tFidelity = 0.938047\tKL = 0.033838\t" = false ∧
    "Epoch = 10\tFidelity = 0.938047\tKL = 0.033838\t" ∈ part000ReportLines ∧
    part000ReportLines.all isClaimReportLine = false := by
  refine ⟨by decide, List.mem_cons_self _ _, by decide⟩

set_option maxRecDepth 8000 in
/-- **C2 (amended).** Every recorded evaluation is a single textual line
of the form `Epoch<sep><i>` then tab-separated `<MetricName> = <value>`
fields, where the separator is `: ` in the final tutorial and ` = ` (with
a trailing tab) in the earlier draft; in each run there is exactly one
line per cadence trigger, with epoch numbers exactly the cadence
multiples — monotonically increasing, no duplicates.  The final
tutorial's lines do match the claimed `Epoch: <i>` format exactly. -/
theorem report_lines_format :
    checkRun part000ReportLines 50 10 = true ∧
    checkRun tutorialReportLines 700 50 = true ∧
    tutorialReportLines.all isClaimReportLine = true := by
  refine ⟨by decide, by decide, by decide⟩
